import Mathlib

/-!
Shallow embedding of the DPM-Core package-catalog library (src/lib.rs,
src/error.rs) and verification of its specification.

The embedding models the build with both the `server` and `client` cargo
features enabled, so `PackageBasicInfo` carries the optional `entry` and
`description` fields and all mutation operations are available.

The Rust `HashMap<String, PackageBasicInfo>` is modelled as an association
list with at most one binding per key on every reachable state; lemmas that
need key uniqueness take a `Nodup` hypothesis. Network fetches
(`JsonStorage::from_url`) are modelled by passing the fetch outcome (or a
URL-indexed oracle) as an explicit argument. JSON documents are modelled at
the level of the `serde_json` value tree.
-/

deriving instance DecidableEq for Except

namespace DPM

/-- `Dependency` from src/lib.rs: a named, versioned reference. -/
structure Dependency where
  name : String
  version : String
deriving DecidableEq, Repr

/-- `PackageInfo` from src/lib.rs: the full descriptor of one package. -/
structure PackageInfo where
  package_name : String
  file_name : String
  version : String
  description : String
  hash : String
  dependencies : Option (List Dependency)
deriving DecidableEq, Repr

/-- `PackageBasicInfo` from src/lib.rs: one catalog entry (client+server build). -/
structure PackageBasicInfo where
  url : String
  file_name : String
  version : String
  hash : String
  dependencies : Option (List Dependency)
  entry : Option String
  description : Option String
deriving DecidableEq, Repr

/-- `CoreError` from src/error.rs. `IoError`/`JsonError` payloads are kept as
their rendered messages. -/
inductive CoreError where
  | PackageNotFound (name : String)
  | VersionMismatch (msg : String)
  | InvalidPackage (msg : String)
  | DependencyError (msg : String)
  | NetworkError (msg : String)
  | IoError (msg : String)
  | JsonError (msg : String)
  | DatabaseError (msg : String)
  | HashMismatch (expected actual : String)
  | SecurityError (msg : String)
deriving DecidableEq, Repr

/-- The `packages` field of `RepoInfo`: `HashMap<String, PackageBasicInfo>`
modelled as an association list (unique keys on reachable states). -/
abbrev PkgMap := List (String × PackageBasicInfo)

/-- `HashMap::insert`: replace the binding of the key if present, else add it. -/
def insertPkg : PkgMap → String → PackageBasicInfo → PkgMap
  | [], k, v => [(k, v)]
  | (k', v') :: rest, k, v =>
    if k' = k then (k, v) :: rest else (k', v') :: insertPkg rest k v

/-- `HashMap::get` / `contains_key` backing lookup. -/
def lookupPkg : PkgMap → String → Option PackageBasicInfo
  | [], _ => none
  | (k', v') :: rest, k => if k' = k then some v' else lookupPkg rest k

/-- `HashMap::remove`: drop the binding of the key. -/
def erasePkg : PkgMap → String → PkgMap
  | [], _ => []
  | (k', v') :: rest, k => if k' = k then rest else (k', v') :: erasePkg rest k

/-- `RepoInfo` from src/lib.rs. -/
structure RepoInfo where
  packages : PkgMap
deriving DecidableEq, Repr

/-- `RepoInfo::new`. -/
def RepoInfo.new : RepoInfo := ⟨[]⟩

/-- `RepoInfo::has_package`. -/
def RepoInfo.has_package (r : RepoInfo) (package_name : String) : Bool :=
  (lookupPkg r.packages package_name).isSome

/-- `RepoInfo::get_package`. -/
def RepoInfo.get_package (r : RepoInfo) (package_name : String) :
    Except CoreError PackageBasicInfo :=
  match lookupPkg r.packages package_name with
  | some package => .ok package
  | none => .error (.PackageNotFound package_name)

/-- `RepoInfo::add_package` (server build; client fields included). -/
def RepoInfo.add_package (r : RepoInfo) (name url file_name version hash : String)
    (dependencies : Option (List Dependency))
    ( entry description : Option String) : RepoInfo :=
  ⟨insertPkg r.packages name ⟨url, file_name, version, hash, dependencies, entry, description⟩⟩

/-- `RepoInfo::add_package_with_info`. -/
def RepoInfo.add_package_with_info (r : RepoInfo) (name : String)
    (info : PackageBasicInfo) : RepoInfo :=
  ⟨insertPkg r.packages name info⟩

/-- `RepoInfo::remove_package`: result value paired with the state after the
call (`&mut self` made explicit). -/
def RepoInfo.remove_package (r : RepoInfo) (package_name : String) :
    Except CoreError PackageBasicInfo × RepoInfo :=
  match lookupPkg r.packages package_name with
  | some package => (.ok package, ⟨erasePkg r.packages package_name⟩)
  | none => (.error (.PackageNotFound package_name), r)

/-- `RepoInfo::update_package`. On an existing entry only the five
server-side fields are merged (the `entry`/`description` arguments are unused
in that branch of the Rust code); on a missing name a fresh entry is inserted
with empty-string defaults and `dependencies: None`. -/
def RepoInfo.update_package (r : RepoInfo) (package_name : String)
    (url file_name version hash : Option String)
    (dependencies : Option (List Dependency))
    ( entry description : Option String) : RepoInfo :=
  match lookupPkg r.packages package_name with
  | some existing_package =>
      ⟨insertPkg r.packages package_name
        { url := url.getD existing_package.url
          file_name := file_name.getD existing_package.file_name
          version := version.getD existing_package.version
          hash := hash.getD existing_package.hash
          dependencies :=
            match dependencies with
            | some new_dependencies => some new_dependencies
            | none => existing_package.dependencies
          entry := existing_package.entry
          description := existing_package.description }⟩
  | none =>
      ⟨insertPkg r.packages package_name
        { url := url.getD ""
          file_name := file_name.getD ""
          version := version.getD ""
          hash := hash.getD ""
          dependencies := none
          entry := entry
          description := description }⟩

/-- `RepoInfo::fetch_update_repo_info`: the outcome of
`JsonStorage::from_url(url)` is passed explicitly; on success the whole
package map is overwritten, on failure the `?` operator returns early. -/
def RepoInfo.fetch_update_repo_info (r : RepoInfo)
    (fetched : Except CoreError RepoInfo) : Except CoreError Unit × RepoInfo :=
  match fetched with
  | .ok repo_info => (.ok (), ⟨repo_info.packages⟩)
  | .error e => (.error e, r)

/-- Helper for `str::replace` on character lists with a nonempty pattern
`p :: ps`: scan left to right, replace each leftmost non-overlapping match
and continue after the replacement. The fuel argument (instantiated with the
length of the scanned list, which always suffices) keeps the recursion
structural so that the function evaluates by kernel reduction. -/
def listReplaceFuel (p : Char) (ps rep : List Char) : Nat → List Char → List Char
  | 0, s => s
  | _ + 1, [] => []
  | fuel + 1, c :: rest =>
    if (p :: ps).isPrefixOf (c :: rest) then
      rep ++ listReplaceFuel p ps rep fuel (List.drop ps.length rest)
    else
      c :: listReplaceFuel p ps rep fuel rest

/-- Rust `str::replace self from to`: replaces every non-overlapping match of
`from` in `self` by `to`; an empty `from` matches at every character boundary,
including both ends. -/
def rustReplace (s pat rep : String) : String :=
  match pat.data with
  | [] => ⟨rep.data ++ List.flatten (s.data.map (fun c => c :: rep.data))⟩
  | p :: ps => ⟨listReplaceFuel p ps rep.data s.data.length s.data⟩

/-- `RepoInfo::get_single_package_info`: the network is modelled by a
`fetch` oracle mapping the requested URL to the outcome of
`JsonStorage::<PackageInfo>::from_url` at that URL. -/
def RepoInfo.get_single_package_info (r : RepoInfo) (pkg_name : String)
    (fetch : String → Except CoreError PackageInfo) :
    Except CoreError PackageInfo :=
  match lookupPkg r.packages pkg_name with
  | some package =>
      fetch (rustReplace package.url package.file_name
        ("src/" ++ pkg_name ++ "/packageInfo.json"))
  | none => .error (.PackageNotFound pkg_name)

/-- The fragment of the `serde_json` value tree that the catalog documents
use: null, strings, arrays and objects (an object is its field list in
emission order). -/
inductive Json where
  | null
  | str (s : String)
  | arr (elems : List Json)
  | obj (fields : List (String × Json))

/-- Field lookup in a JSON object body (first binding wins). -/
def jsonLookup : List (String × Json) → String → Option Json
  | [], _ => none
  | (k', v) :: rest, k => if k' = k then some v else jsonLookup rest k

/-- The field list of an object value (else empty). -/
def objFields : Json → List (String × Json)
  | .obj fields => fields
  | _ => []

/-- serde serialization of `Dependency` (derive, field order). -/
def Dependency.toJson (d : Dependency) : Json :=
  .obj [("name", .str d.name), ("version", .str d.version)]

/-- serde serialization of `Option<Vec<Dependency>>`: `None` is `null`. -/
def depsToJson : Option (List Dependency) → Json
  | none => .null
  | some l => .arr (l.map Dependency.toJson)

/-- serde serialization of `PackageBasicInfo` (client build): fields in
declaration order; `entry` and `description` carry
`skip_serializing_if = "Option::is_none"`, so they are omitted when `None`. -/
def PackageBasicInfo.toJson (p : PackageBasicInfo) : Json :=
  .obj ([("url", .str p.url), ("file_name", .str p.file_name),
         ("version", .str p.version), ("hash", .str p.hash),
         ("dependencies", depsToJson p.dependencies)]
    ++ (match p.entry with
        | some e => [("entry", .str e)]
        | none => [])
    ++ (match p.description with
        | some d => [("description", .str d)]
        | none => []))

/-- serde serialization of `RepoInfo`: one `packages` object field. -/
def RepoInfo.toJson (r : RepoInfo) : Json :=
  .obj [("packages", .obj (r.packages.map (fun kv => (kv.1, kv.2.toJson))))]

/-- serde deserialization of a JSON value as a string. -/
def strFromJson : Option Json → Option String
  | some (.str s) => some s
  | _ => none

/-- serde deserialization of an `Option<String>` field: a missing field and
`null` both give `None`. -/
def optStrFromJson : Option Json → Option (Option String)
  | none => some none
  | some .null => some none
  | some (.str s) => some (some s)
  | some _ => none

/-- serde deserialization of `Dependency`. -/
def Dependency.fromJson : Json → Option Dependency
  | .obj fields =>
      match strFromJson (jsonLookup fields "name"),
            strFromJson (jsonLookup fields "version") with
      | some n, some v => some ⟨n, v⟩
      | _, _ => none
  | _ => none

/-- serde deserialization of a JSON array body as `Vec<Dependency>`,
preserving element order. -/
def depListFromJson : List Json → Option (List Dependency)
  | [] => some []
  | j :: rest =>
      match Dependency.fromJson j, depListFromJson rest with
      | some d, some ds => some (d :: ds)
      | _, _ => none

/-- serde deserialization of an `Option<Vec<Dependency>>` field: a missing
field and `null` both give `None`. -/
def depsFromJson : Option Json → Option (Option (List Dependency))
  | none => some none
  | some .null => some none
  | some (.arr elems) => (depListFromJson elems).map some
  | some _ => none

/-- serde deserialization of `PackageBasicInfo` (client build): fields are
looked up by name, unknown fields are ignored. -/
def PackageBasicInfo.fromJson (j : Json) : Option PackageBasicInfo :=
  match j with
  | .obj fields =>
      match strFromJson (jsonLookup fields "url"),
            strFromJson (jsonLookup fields "file_name"),
            strFromJson (jsonLookup fields "version"),
            strFromJson (jsonLookup fields "hash"),
            depsFromJson (jsonLookup fields "dependencies"),
            optStrFromJson (jsonLookup fields "entry"),
            optStrFromJson (jsonLookup fields "description") with
      | some url, some file_name, some version, some hash,
        some dependencies, some e, some d =>
          some ⟨url, file_name, version, hash, dependencies, e, d⟩
      | _, _, _, _, _, _, _ => none
  | _ => none

/-- serde deserialization of the `packages` object body into the package map
(the emitted documents have unique keys, so textual order is kept). -/
def pkgPairsFromJson : List (String × Json) → Option PkgMap
  | [] => some []
  | (k, j) :: rest =>
      match PackageBasicInfo.fromJson j, pkgPairsFromJson rest with
      | some p, some ps => some ((k, p) :: ps)
      | _, _ => none

/-- serde deserialization of `RepoInfo`. -/
def RepoInfo.fromJson (j : Json) : Option RepoInfo :=
  match j with
  | .obj fields =>
      match jsonLookup fields "packages" with
      | some (.obj pkgFields) => (pkgPairsFromJson pkgFields).map RepoInfo.mk
      | _ => none
  | _ => none

/-- One argument tuple of `RepoInfo::add_package`. -/
structure AddArgs where
  url : String
  file_name : String
  version : String
  hash : String
  dependencies : Option (List Dependency)
  entry : Option String
  description : Option String
deriving DecidableEq, Repr

/-- The catalog entry that `add_package` builds from its arguments. -/
def AddArgs.pkg (a : AddArgs) : PackageBasicInfo :=
  ⟨a.url, a.file_name, a.version, a.hash, a.dependencies, a.entry, a.description⟩

/-- A sequence of `add_package` calls under a single name. -/
def addMany (r : RepoInfo) (name : String) : List AddArgs → RepoInfo
  | [] => r
  | a :: rest =>
      addMany (r.add_package name a.url a.file_name a.version a.hash
        a.dependencies a.entry a.description) name rest

/-- A fetch oracle that records the requested URL in the returned
descriptor's `package_name`, so the theorem can observe which URL a fetch
operation requested. -/
def echoFetch : String → Except CoreError PackageInfo :=
  fun u => .ok ⟨u, "", "", "", "", none⟩

/-- Concrete registry with client fields set, for the C3 counterexample and
witness. -/
def c3Repo : RepoInfo :=
  RepoInfo.new.add_package "pkgA" "http://h/f.zip" "f.zip" "1.0.0" "h123" none
    (some "bin/run") (some "old text")

/-- Concrete registry whose entry url ends in its file name, for the C6
witness. -/
def c6Repo : RepoInfo :=
  RepoInfo.new.add_package "pkgS" "http://h/f.zip" "f.zip" "1.0" "h" none none none

/-- Concrete one-entry registry for the C7 witness. -/
def c7Repo : RepoInfo :=
  RepoInfo.new.add_package "pkgT" "http://h/t.zip" "t.zip" "2.0" "h7" none none none

/-- Concrete two-entry registry exercising both `dependencies` shapes and the
optional client fields, for the C9 witness. -/
def c9Repo : RepoInfo :=
  (RepoInfo.new.add_package "alpha" "http://h/a.zip" "a.zip" "1.0" "ha"
      (some [⟨"beta", "2.0"⟩, ⟨"gamma", "3.0"⟩]) (some "bin/a") none).add_package
    "beta" "http://h/b.zip" "b.zip" "2.0" "hb" none none (some "desc b")

/-- Concrete one-entry registry for the C10 witness. -/
def c10Repo : RepoInfo :=
  RepoInfo.new.add_package "pkgB" "http://h/b.zip" "b.zip" "1.0" "hb" none none none

theorem lookupPkg_insertPkg_self (m : PkgMap) (k : String) (v : PackageBasicInfo) :
    lookupPkg (insertPkg m k v) k = some v := by
  induction m with
  | nil => simp [insertPkg, lookupPkg]
  | cons kv rest ih =>
    obtain ⟨k', v'⟩ := kv
    by_cases h : k' = k
    · simp [insertPkg, h, lookupPkg]
    · simp [insertPkg, h, lookupPkg, ih]

theorem lookupPkg_insertPkg_ne (m : PkgMap) (k k2 : String) (v : PackageBasicInfo)
    (h : k ≠ k2) : lookupPkg (insertPkg m k v) k2 = lookupPkg m k2 := by
  induction m with
  | nil => simp [insertPkg, lookupPkg, h]
  | cons kv rest ih =>
    obtain ⟨k', v'⟩ := kv
    by_cases h' : k' = k
    · subst h'
      simp [insertPkg, lookupPkg, h]
    · simp [insertPkg, h', lookupPkg, ih]

theorem lookupPkg_erasePkg_ne (m : PkgMap) (k k2 : String) (h : k ≠ k2) :
    lookupPkg (erasePkg m k) k2 = lookupPkg m k2 := by
  induction m with
  | nil => rfl
  | cons kv rest ih =>
    obtain ⟨k', v'⟩ := kv
    by_cases h' : k' = k
    · subst h'
      simp [erasePkg, lookupPkg, h]
    · simp [erasePkg, h', lookupPkg, ih]

theorem lookupPkg_eq_none_of_not_mem (m : PkgMap) (k : String)
    (h : k ∉ m.map Prod.fst) : lookupPkg m k = none := by
  induction m with
  | nil => rfl
  | cons kv rest ih =>
    obtain ⟨k', v'⟩ := kv
    simp only [List.map_cons, List.mem_cons, not_or] at h
    have h1 : ¬ k' = k := fun hh => h.1 hh.symm
    simp [lookupPkg, h1, ih h.2]

theorem lookupPkg_erasePkg_self (m : PkgMap) (k : String)
    (hnd : (m.map Prod.fst).Nodup) : lookupPkg (erasePkg m k) k = none := by
  induction m with
  | nil => rfl
  | cons kv rest ih =>
    obtain ⟨k', v'⟩ := kv
    simp only [List.map_cons, List.nodup_cons] at hnd
    by_cases h : k' = k
    · subst h
      simp only [erasePkg, if_pos rfl]
      exact lookupPkg_eq_none_of_not_mem rest k' hnd.1
    · simp [erasePkg, h, lookupPkg, ih hnd.2]

theorem listReplaceFuel_nil (p : Char) (ps rep : List Char) (fuel : Nat) :
    listReplaceFuel p ps rep fuel [] = [] := by
  cases fuel <;> rfl

theorem isPrefixOf_self (l : List Char) : l.isPrefixOf l = true := by
  induction l with
  | nil => rfl
  | cons c rest ih => simp [List.isPrefixOf, ih]

/-- If the pattern `p :: ps` matches nowhere in `pre ++ p :: ps` except at the
very end, the replacement scan rewrites exactly the suffix. -/
theorem listReplaceFuel_suffix_only (p : Char) (ps rep : List Char) :
    ∀ (pre : List Char) (fuel : Nat), (pre ++ p :: ps).length ≤ fuel →
      (∀ i, i < pre.length →
        (p :: ps).isPrefixOf (List.drop i (pre ++ p :: ps)) = false) →
      listReplaceFuel p ps rep fuel (pre ++ p :: ps) = pre ++ rep := by
  intro pre
  induction pre with
  | nil =>
    intro fuel hf _
    cases fuel with
    | zero => simp at hf
    | succ f =>
      simp [listReplaceFuel, isPrefixOf_self, List.drop_length, listReplaceFuel_nil]
  | cons c pre' ih =>
    intro fuel hf hocc
    cases fuel with
    | zero => simp at hf
    | succ f =>
      have h0 : (p :: ps).isPrefixOf (c :: (pre' ++ p :: ps)) = false := by
        have h := hocc 0 (by simp)
        simpa using h
      have hf' : (pre' ++ p :: ps).length ≤ f := by
        simp only [List.cons_append, List.length_cons] at hf
        omega
      have hocc' : ∀ i, i < pre'.length →
          (p :: ps).isPrefixOf (List.drop i (pre' ++ p :: ps)) = false := by
        intro i hi
        have h := hocc (i + 1) (by simpa using Nat.succ_lt_succ hi)
        simpa [List.drop_succ_cons] using h
      simp only [List.cons_append, listReplaceFuel, List.append_eq]
      rw [h0]
      simp only [Bool.false_eq_true, if_false]
      rw [ih f hf' hocc']

/-- Rust `str::replace` at the string level: when the nonempty pattern occurs
only as the final suffix, the result is the prefix followed by the
replacement. -/
theorem rustReplace_suffix_only (pre pat rep : String) (hne : pat ≠ "")
    (hocc : ∀ i, i < pre.data.length →
      pat.data.isPrefixOf (List.drop i (pre.data ++ pat.data)) = false) :
    rustReplace (pre ++ pat) pat rep = pre ++ rep := by
  obtain ⟨prd⟩ := pre
  obtain ⟨pd⟩ := pat
  obtain ⟨rd⟩ := rep
  cases pd with
  | nil => exact absurd rfl hne
  | cons p ps =>
    show String.mk (listReplaceFuel p ps rd (prd ++ p :: ps).length (prd ++ p :: ps))
        = String.mk (prd ++ rd)
    rw [listReplaceFuel_suffix_only p ps rd prd (prd ++ p :: ps).length le_rfl hocc]

theorem dependency_fromJson_toJson (d : Dependency) :
    Dependency.fromJson d.toJson = some d := by
  simp [Dependency.toJson, Dependency.fromJson, jsonLookup, strFromJson]

theorem depListFromJson_map_toJson (l : List Dependency) :
    depListFromJson (l.map Dependency.toJson) = some l := by
  induction l with
  | nil => rfl
  | cons d rest ih => simp [depListFromJson, dependency_fromJson_toJson, ih]

theorem depsFromJson_depsToJson (od : Option (List Dependency)) :
    depsFromJson (some (depsToJson od)) = some od := by
  cases od with
  | none => rfl
  | some l => simp [depsToJson, depsFromJson, depListFromJson_map_toJson]

theorem packageBasicInfo_fromJson_toJson (p : PackageBasicInfo) :
    PackageBasicInfo.fromJson p.toJson = some p := by
  obtain ⟨url, file_name, version, hash, dependencies, e, d⟩ := p
  cases e <;> cases d <;>
    simp [PackageBasicInfo.toJson, PackageBasicInfo.fromJson, jsonLookup,
      strFromJson, optStrFromJson, depsFromJson_depsToJson]

theorem pkgPairsFromJson_map_toJson (m : PkgMap) :
    pkgPairsFromJson (m.map (fun kv => (kv.1, kv.2.toJson))) = some m := by
  induction m with
  | nil => rfl
  | cons kv rest ih =>
    simp [pkgPairsFromJson, packageBasicInfo_fromJson_toJson, ih]

/-- C1: after `add_package` under name `n` followed by any number of further
`add_package` calls under `n`, `has_package n` is true and `get_package n`
returns exactly the entry built from the arguments of the most recent call,
with no merging of fields from earlier entries. -/
theorem add_package_last_write_wins (r : RepoInfo) (name : String)
    (l : List AddArgs) (a : AddArgs) :
    (addMany r name (l ++ [a])).has_package name = true ∧
    (addMany r name (l ++ [a])).get_package name = .ok a.pkg := by
  induction l generalizing r with
  | nil =>
    constructor
    · simp [addMany, RepoInfo.add_package, RepoInfo.has_package,
        lookupPkg_insertPkg_self]
    · simp [addMany, RepoInfo.add_package, RepoInfo.get_package,
        lookupPkg_insertPkg_self, AddArgs.pkg]
  | cons b rest ih =>
    exact ih _

/-- C2: `fetch_update_repo_info` is all-or-nothing: on a successful fetch the
whole local package map is replaced by the fetched registry's map (so every
lookup afterwards agrees with the fetched registry), and on any fetch failure
the error is returned with the local map unchanged. -/
theorem fetch_update_repo_info_all_or_nothing (r ri : RepoInfo) (e : CoreError) :
    r.fetch_update_repo_info (.ok ri) = (.ok (), ⟨ri.packages⟩) ∧
    (∀ n, ((r.fetch_update_repo_info (.ok ri)).2).has_package n = ri.has_package n ∧
      ((r.fetch_update_repo_info (.ok ri)).2).get_package n = ri.get_package n) ∧
    r.fetch_update_repo_info (.error e) = (.error e, r) :=
  ⟨rfl, fun _ => ⟨rfl, rfl⟩, rfl⟩

/-- C3 fails as stated: on an existing entry, `update_package` leaves the
`entry` and `description` fields at their prior values even when the
corresponding arguments are supplied as `Some`; here `entry` was supplied as
`some "bin/new"` and `description` as `some "new text"`, yet the stored entry
keeps `some "bin/run"` and `some "old text"`. -/
theorem update_package_ignores_client_fields_counterexample :
    (c3Repo.update_package "pkgA" none none none none none
        (some "bin/new") (some "new text")).get_package "pkgA"
      = .ok ⟨"http://h/f.zip", "f.zip", "1.0.0", "h123", none,
          some "bin/run", some "old text"⟩ ∧
    (some "bin/run" : Option String) ≠ some "bin/new" ∧
    (some "old text" : Option String) ≠ some "new text" := by
  decide

/-- C3 (amended): on an existing entry, `update_package` overwrites exactly
the `url`, `file_name`, `version` and `hash` fields supplied as present,
keeps fields supplied as absent, replaces the whole stored dependency list
when one is supplied, and always keeps the prior `entry` and `description`
values (the corresponding arguments are ignored for existing entries). -/
theorem update_package_existing_merges (r : RepoInfo) (n : String)
    (url file_name version hash : Option String)
    (dependencies : Option (List Dependency)) ( entry description : Option String)
    (p : PackageBasicInfo) (h : lookupPkg r.packages n = some p) :
    (r.update_package n url file_name version hash
        dependencies entry description).get_package n
      = .ok { url := url.getD p.url
              file_name := file_name.getD p.file_name
              version := version.getD p.version
              hash := hash.getD p.hash
              dependencies :=
                match dependencies with
                | some new_dependencies => some new_dependencies
                | none => p.dependencies
              entry := p.entry
              description := p.description } := by
  simp [RepoInfo.update_package, h, RepoInfo.get_package, lookupPkg_insertPkg_self]

theorem update_package_existing_merges_witness :
    (c3Repo.update_package "pkgA" (some "http://h/new.zip") none (some "2.0.0")
        none (some [⟨"dep1", "0.1"⟩]) none none).get_package "pkgA"
      = .ok ⟨"http://h/new.zip", "f.zip", "2.0.0", "h123",
          some [⟨"dep1", "0.1"⟩], some "bin/run", some "old text"⟩ :=
  update_package_existing_merges c3Repo "pkgA" (some "http://h/new.zip") none
    (some "2.0.0") none (some [⟨"dep1", "0.1"⟩]) none none
    ⟨"http://h/f.zip", "f.zip", "1.0.0", "h123", none, some "bin/run", some "old text"⟩
    (by decide)

/-- C4: `update_package` on a missing name creates an entry whose `url`,
`file_name`, `version` and `hash` are the supplied values when present and
`""` when absent, whose `dependencies` field is `None` regardless of the
supplied dependency argument, and afterwards `has_package n` is true. -/
theorem update_package_upsert_creates (r : RepoInfo) (n : String)
    (url file_name version hash : Option String)
    (dependencies : Option (List Dependency)) ( entry description : Option String)
    (h : lookupPkg r.packages n = none) :
    (r.update_package n url file_name version hash
        dependencies entry description).has_package n = true ∧
    (r.update_package n url file_name version hash
        dependencies entry description).get_package n
      = .ok ⟨url.getD "", file_name.getD "", version.getD "", hash.getD "",
          none, entry, description⟩ := by
  constructor
  · simp [RepoInfo.update_package, h, RepoInfo.has_package, lookupPkg_insertPkg_self]
  · simp [RepoInfo.update_package, h, RepoInfo.get_package, lookupPkg_insertPkg_self]

theorem update_package_upsert_creates_witness :
    (RepoInfo.new.update_package "pkgX" (some "http://h/x.zip") none
        (some "1.0.0") none (some [⟨"dep1", "0.1"⟩]) none none).has_package "pkgX" = true ∧
    (RepoInfo.new.update_package "pkgX" (some "http://h/x.zip") none
        (some "1.0.0") none (some [⟨"dep1", "0.1"⟩]) none none).get_package "pkgX"
      = .ok ⟨"http://h/x.zip", "", "1.0.0", "", none, none, none⟩ :=
  update_package_upsert_creates RepoInfo.new "pkgX" (some "http://h/x.zip") none
    (some "1.0.0") none (some [⟨"dep1", "0.1"⟩]) none none (by decide)

/-- C5 fails as stated: `update_package` on a missing name does not fail with
a package-not-found error — it has no error result at all and succeeds by
creating the entry, as shown here on the empty registry. -/
theorem update_package_missing_does_not_fail_counterexample :
    RepoInfo.new.has_package "pkgY" = false ∧
    (RepoInfo.new.update_package "pkgY" (some "http://h/y.zip") none none none
        none none none).has_package "pkgY" = true ∧
    RepoInfo.new.update_package "pkgY" (some "http://h/y.zip") none none none
        none none none ≠ RepoInfo.new := by
  decide

/-- C5 (amended): `update_package` on a missing name never produces an error:
it succeeds by inserting a fresh entry under that name (upsert), so
`has_package n` flips from false to true; package-not-found is raised by
`get_package`, `remove_package` and the fetch operations, not by
`update_package`. -/
theorem update_package_missing_upserts (r : RepoInfo) (n : String)
    (url file_name version hash : Option String)
    (dependencies : Option (List Dependency)) ( entry description : Option String)
    (h : lookupPkg r.packages n = none) :
    r.has_package n = false ∧
    (r.update_package n url file_name version hash
        dependencies entry description).has_package n = true := by
  constructor
  · simp [RepoInfo.has_package, h]
  · simp [RepoInfo.update_package, h, RepoInfo.has_package, lookupPkg_insertPkg_self]

theorem update_package_missing_upserts_witness :
    RepoInfo.new.has_package "pkgZ" = false ∧
    (RepoInfo.new.update_package "pkgZ" none none none none none none
        none).has_package "pkgZ" = true :=
  update_package_missing_upserts RepoInfo.new "pkgZ" none none none none none
    none none (by decide)

/-- C6 fails as stated: the descriptor URL is built with Rust `str::replace`,
which replaces every occurrence of the entry's file name, not only the final
suffix. For an entry whose url is `"f.zip" ++ "f.zip"` (which does end in its
file name `"f.zip"`), the code requests the URL with both occurrences
replaced, not only the suffix occurrence. -/
theorem get_single_package_info_counterexample :
    ("f.zipf.zip" : String) = "f.zip" ++ "f.zip" ∧
    (RepoInfo.new.add_package "pkgR" "f.zipf.zip" "f.zip" "1.0" "h" none none
        none).get_single_package_info "pkgR" echoFetch
      = echoFetch ("src/pkgR/packageInfo.json" ++ "src/pkgR/packageInfo.json") ∧
    echoFetch ("src/pkgR/packageInfo.json" ++ "src/pkgR/packageInfo.json")
      ≠ echoFetch ("f.zip" ++ "src/pkgR/packageInfo.json") := by
  decide

/-- C6 (amended): for an entry under name `n`, `get_single_package_info`
requests the descriptor from the entry's url with every occurrence of its
file name replaced by `src/<n>/packageInfo.json` and returns the fetched
descriptor; when the nonempty file name occurs in the url only as its final
suffix this coincides with replacing the suffix; for a missing name it fails
with package-not-found without issuing any request. -/
theorem get_single_package_info_spec (r : RepoInfo) (n : String)
    (fetch : String → Except CoreError PackageInfo) :
    (∀ p, lookupPkg r.packages n = some p →
      r.get_single_package_info n fetch
        = fetch (rustReplace p.url p.file_name ("src/" ++ n ++ "/packageInfo.json")) ∧
      (∀ pre : String, p.url = pre ++ p.file_name → p.file_name ≠ "" →
        (∀ i, i < pre.data.length →
          p.file_name.data.isPrefixOf (List.drop i (pre.data ++ p.file_name.data))
            = false) →
        r.get_single_package_info n fetch
          = fetch (pre ++ ("src/" ++ n ++ "/packageInfo.json")))) ∧
    (lookupPkg r.packages n = none →
      r.get_single_package_info n fetch = .error (.PackageNotFound n)) := by
  constructor
  · intro p hp
    constructor
    · simp [RepoInfo.get_single_package_info, hp]
    · intro pre hurl hne hocc
      have hrep : rustReplace p.url p.file_name ("src/" ++ n ++ "/packageInfo.json")
          = pre ++ ("src/" ++ n ++ "/packageInfo.json") := by
        rw [hurl]
        exact rustReplace_suffix_only pre p.file_name _ hne hocc
      simp [RepoInfo.get_single_package_info, hp, hrep]
  · intro h
    simp [RepoInfo.get_single_package_info, h]

theorem get_single_package_info_spec_witness :
    c6Repo.get_single_package_info "pkgS" echoFetch
      = echoFetch ("http://h/" ++ ("src/" ++ "pkgS" ++ "/packageInfo.json")) ∧
    RepoInfo.new.get_single_package_info "pkgS" echoFetch
      = .error (.PackageNotFound "pkgS") :=
  ⟨((get_single_package_info_spec c6Repo "pkgS" echoFetch).1
      ⟨"http://h/f.zip", "f.zip", "1.0", "h", none, none, none⟩ (by decide)).2
      "http://h/" (by decide) (by decide) (by decide),
   (get_single_package_info_spec RepoInfo.new "pkgS" echoFetch).2 (by decide)⟩

/-- C7: `remove_package` on a contained name returns the entry stored under
it and afterwards `has_package` is false (keys are unique in the map, made
explicit by the `Nodup` hypothesis); on a missing name it fails with
package-not-found and the registry is unchanged. -/
theorem remove_package_spec (r : RepoInfo) (n : String) :
    (∀ p, lookupPkg r.packages n = some p → (r.packages.map Prod.fst).Nodup →
      (r.remove_package n).1 = .ok p ∧
      ((r.remove_package n).2).has_package n = false) ∧
    (lookupPkg r.packages n = none →
      r.remove_package n = (.error (.PackageNotFound n), r)) := by
  constructor
  · intro p hp hnd
    constructor
    · simp [RepoInfo.remove_package, hp]
    · simp [RepoInfo.remove_package, hp, RepoInfo.has_package,
        lookupPkg_erasePkg_self r.packages n hnd]
  · intro h
    simp [RepoInfo.remove_package, h]

theorem remove_package_spec_witness :
    ((c7Repo.remove_package "pkgT").1
        = .ok ⟨"http://h/t.zip", "t.zip", "2.0", "h7", none, none, none⟩ ∧
      ((c7Repo.remove_package "pkgT").2).has_package "pkgT" = false) ∧
    RepoInfo.new.remove_package "pkgT" = (.error (.PackageNotFound "pkgT"), RepoInfo.new) :=
  ⟨(remove_package_spec c7Repo "pkgT").1
      ⟨"http://h/t.zip", "t.zip", "2.0", "h7", none, none, none⟩ (by decide) (by decide),
   (remove_package_spec RepoInfo.new "pkgT").2 (by decide)⟩

/-- C8: in the serialized catalog entry the `url`, `file_name`, `version`,
`hash` and `dependencies` fields are always present (`dependencies` is `null`
exactly when absent), while `entry` and `description` are emitted as strings
when present and their keys are omitted entirely when absent — never emitted
as `null`. -/
theorem packageBasicInfo_serialization_fields (p : PackageBasicInfo) :
    jsonLookup (objFields p.toJson) "url" = some (.str p.url) ∧
    jsonLookup (objFields p.toJson) "file_name" = some (.str p.file_name) ∧
    jsonLookup (objFields p.toJson) "version" = some (.str p.version) ∧
    jsonLookup (objFields p.toJson) "hash" = some (.str p.hash) ∧
    jsonLookup (objFields p.toJson) "dependencies" = some (depsToJson p.dependencies) ∧
    jsonLookup (objFields p.toJson) "entry" = p.entry.map Json.str ∧
    jsonLookup (objFields p.toJson) "description" = p.description.map Json.str ∧
    ((objFields p.toJson).map Prod.fst).contains "entry" = p.entry.isSome ∧
    ((objFields p.toJson).map Prod.fst).contains "description" = p.description.isSome := by
  obtain ⟨url, file_name, version, hash, dependencies, e, d⟩ := p
  cases e <;> cases d <;>
    simp [PackageBasicInfo.toJson, objFields, jsonLookup, Option.map, depsToJson]

/-- C9: serializing a registry to the JSON document format and parsing the
result back yields an equal package map — the same keys in the same places
and, for each key, equal `url`, `file_name`, `version`, `hash` and
`dependencies` values, with `null` dependencies parsing back to absent and
dependency list order preserved. -/
theorem repoInfo_json_roundtrip (r : RepoInfo)
    (hnd : (r.packages.map Prod.fst).Nodup) :
    RepoInfo.fromJson r.toJson = some r := by
  obtain ⟨m⟩ := r
  simp [RepoInfo.toJson, RepoInfo.fromJson, jsonLookup, pkgPairsFromJson_map_toJson]

theorem repoInfo_json_roundtrip_witness :
    (c9Repo.packages.map Prod.fst).Nodup ∧
    RepoInfo.fromJson c9Repo.toJson = some c9Repo :=
  ⟨by decide, repoInfo_json_roundtrip c9Repo (by decide)⟩

/-- C10: every local mutation is frame-preserving across names: for distinct
names `n ≠ m`, `add_package`, `add_package_with_info`, `update_package` and
`remove_package` applied at `n` leave the binding stored under `m` — and
hence `has_package m` and `get_package m` — exactly as before. -/
theorem local_mutations_frame (r : RepoInfo) (n m : String) (hnm : n ≠ m)
    (url file_name version hash : String)
    (dependencies : Option (List Dependency)) ( entry description : Option String)
    (info : PackageBasicInfo)
    (uurl ufile uver uhash : Option String) (udeps : Option (List Dependency))
    (ue ud : Option String) :
    lookupPkg (r.add_package n url file_name version hash
        dependencies entry description).packages m = lookupPkg r.packages m ∧
    lookupPkg (r.add_package_with_info n info).packages m = lookupPkg r.packages m ∧
    lookupPkg (r.update_package n uurl ufile uver uhash udeps ue ud).packages m
      = lookupPkg r.packages m ∧
    lookupPkg ((r.remove_package n).2).packages m = lookupPkg r.packages m ∧
    (r.add_package n url file_name version hash
        dependencies entry description).has_package m = r.has_package m ∧
    (r.add_package_with_info n info).has_package m = r.has_package m ∧
    (r.update_package n uurl ufile uver uhash udeps ue ud).has_package m
      = r.has_package m ∧
    ((r.remove_package n).2).has_package m = r.has_package m ∧
    (r.add_package n url file_name version hash
        dependencies entry description).get_package m = r.get_package m ∧
    (r.add_package_with_info n info).get_package m = r.get_package m ∧
    (r.update_package n uurl ufile uver uhash udeps ue ud).get_package m
      = r.get_package m ∧
    ((r.remove_package n).2).get_package m = r.get_package m := by
  have hins : ∀ v, lookupPkg (insertPkg r.packages n v) m = lookupPkg r.packages m :=
    fun v => lookupPkg_insertPkg_ne r.packages n m v hnm
  have hupd : lookupPkg (r.update_package n uurl ufile uver uhash udeps ue ud).packages m
      = lookupPkg r.packages m := by
    cases h : lookupPkg r.packages n <;> simp [RepoInfo.update_package, h, hins]
  have hrem : lookupPkg ((r.remove_package n).2).packages m = lookupPkg r.packages m := by
    cases h : lookupPkg r.packages n <;>
      simp [RepoInfo.remove_package, h, lookupPkg_erasePkg_ne r.packages n m hnm]
  refine ⟨hins _, hins _, hupd, hrem, ?_, ?_, ?_, ?_, ?_, ?_, ?_, ?_⟩ <;>
    simp [RepoInfo.has_package, RepoInfo.get_package, RepoInfo.add_package,
      RepoInfo.add_package_with_info, hins, hupd, hrem]

theorem local_mutations_frame_witness :
    (c10Repo.add_package "pkgA" "u" "f" "1" "h" none none none).get_package "pkgB"
      = c10Repo.get_package "pkgB" ∧
    ((c10Repo.remove_package "pkgA").2).has_package "pkgB" = c10Repo.has_package "pkgB" := by
  have h := local_mutations_frame c10Repo "pkgA" "pkgB" (by decide) "u" "f" "1" "h"
    none none none ⟨"u2", "f2", "2", "h2", none, none, none⟩ none none none none
    none none none
  exact ⟨h.2.2.2.2.2.2.2.2.1, h.2.2.2.2.2.2.2.1⟩

end DPM
